import Mathlib

/-!
Verification of the key-driven binding/resolution core of the `AppSyncApi`
construct (src/packages/resources/src/AppSyncApi.ts).

The TypeScript class is embedded shallowly: the construct's mutable maps
(`functionsByDsKey`, `dataSourcesByDsKey`, `dsKeysByResKey`,
`resolversByResKey`, `permissionsAttachedForAllFunctions`) become an explicit
state record threaded through the operations; JavaScript objects (string-keyed,
insertion ordered, assignment overwrites in place) become association lists
with in-place overwrite; thrown `Error`s become an `Except` error type.
Strings are Lean `String`s; the regex split `split(/\s+/)` is embedded as a
character-list split on maximal whitespace runs with JavaScript's semantics
(a leading/trailing run yields an empty leading/trailing token).
-/

namespace AppSyncSpec

/-- Whitespace class of the JavaScript regex `\s` restricted to the ASCII
range (space, tab, line feed, vertical tab, form feed, carriage return). -/
def isWsChar (c : Char) : Bool :=
  c = ' ' || c = '\t' || c = '\n' || c = '\x0b' || c = '\x0c' || c = '\r'

/-- JavaScript `str.split(/\s+/)` on a character list: each maximal run of
whitespace characters is one separator; a run touching the start (resp. end)
of the string contributes an empty first (resp. last) token, as in JS. -/
def splitWs : List Char → List (List Char)
  | [] => [[]]
  | c :: cs =>
    if isWsChar c then
      match cs with
      | c' :: _ => if isWsChar c' then splitWs cs else [] :: splitWs cs
      | [] => [[], []]
    else
      match splitWs cs with
      | t :: ts => (c :: t) :: ts
      | [] => [[c]]

/-- JavaScript `parts.join(" ")` on character-list tokens. -/
def joinSp : List (List Char) → List Char
  | [] => []
  | [t] => t
  | t :: t' :: ts => t ++ ' ' :: joinSp (t' :: ts)

/-- `normalizeResolverKey` of `AppSyncApi` on the underlying character list:
`resolverKey.split(/\s+/).join(" ")`. -/
def normalizeChars (l : List Char) : List Char :=
  joinSp (splitWs l)

/-- `private normalizeResolverKey(resolverKey: string)`: removes extra
whitespace in the key by splitting on whitespace runs and re-joining with
single spaces. -/
def normalizeResolverKey (s : String) : String :=
  ⟨normalizeChars s.data⟩

/-- Helper recursion used to reason about `normalizeChars`: replaces each
maximal whitespace run by a single space, carrying a flag recording whether
the previous character was part of a whitespace run. -/
def collapseAux (prevWs : Bool) : List Char → List Char
  | [] => []
  | c :: cs =>
    if isWsChar c then
      if prevWs then collapseAux true cs else ' ' :: collapseAux true cs
    else
      c :: collapseAux false cs

/-- JavaScript `str.split(" ")` on a character list: every single space
character is a separator (`resKey.split(" ")` in `addResolver`). -/
def splitSp : List Char → List (List Char)
  | [] => [[]]
  | c :: cs =>
    if c = ' ' then [] :: splitSp cs
    else
      match splitSp cs with
      | t :: ts => (c :: t) :: ts
      | [] => [[c]]

/-- `resolverKeyParts = resKey.split(" ")` as a list of strings. -/
def resolverKeyParts (s : String) : List String :=
  (splitSp s.data).map String.mk

/-- Opaque permission descriptor (`Permissions` from `util/permission`). -/
abbrev Permissions := Nat

/-- The shape that reaches `buildMappingTemplate` at run time.  In the
source, `MappingTemplate = MappingTemplateFile | MappingTemplateInline` is an
untagged structural union; `buildMappingTemplate` discriminates by the
truthiness of the `file` field alone, so a value may carry either field, both
of them, or neither.  The structural embedding makes both fields optional. -/
structure MappingTemplate where
  file : Option String
  inline : Option String
deriving DecidableEq, Repr

/-- Handle returned by the external `appsync.MappingTemplate` factory:
`fromFile(path)` or `fromString(inline)` — the latter receives the `inline`
field as-is, which the source never checks for presence. -/
inductive MappingTemplateArtifact where
  | fromFile (path : String)
  | fromString (s : Option String)
deriving DecidableEq, Repr

/-- A declarative function definition as accepted by `Fn.fromDefinition`:
a handler path string, a pre-built `Function` construct (identified by an
opaque reference), or — reproducing the source's untyped fall-through — a
resolver-props object carrying neither `function` nor `dataSource`, which
`addResolver`'s final `else` branch forwards raw to `Fn.fromDefinition`. -/
inductive FnDefn where
  | handler (path : String)
  | construct (ref : Nat)
  | resolverPropsValue (requestMapping responseMapping : Option MappingTemplate)
deriving DecidableEq, Repr

/-- Compute-function handle (`Fn` from `./Function`): construct id, the
definition it was created from, and the permission grants attached so far. -/
structure Fn where
  cid : String
  defn : FnDefn
  perms : List Permissions
deriving DecidableEq, Repr

/-- Modelled from the spec: `Function.fromDefinition` (`Function.ts`, not
under src/) materializes a declarative definition into a compute-resource
handle; grants are attached only through `attachPermissions`.  Defaults
merging (spec §4.5) and its `ConflictingConfiguration` error are outside the
claims modelled here. -/
def Fn.fromDefinition (cid : String) (defn : FnDefn) : Fn :=
  { cid := cid, defn := defn, perms := [] }

/-- Modelled from the spec: `Function.attachPermissions` (`Function.ts`, not
under src/) applies one grant descriptor to the compute resource; embedded as
appending the descriptor to the handle's grant list. -/
def Fn.attachPermissions (fn : Fn) (p : Permissions) : Fn :=
  { fn with perms := fn.perms ++ [p] }

/-- `AppSyncApiResolverProps`: full resolver configuration.  The `cdk`
pass-through override block is not modelled (no claim concerns it). -/
structure AppSyncApiResolverProps where
  dataSource : Option String
  function : Option FnDefn
  requestMapping : Option MappingTemplate
  responseMapping : Option MappingTemplate
deriving DecidableEq, Repr

/-- A resolver declaration value:
`string | FunctionInlineDefinition | AppSyncApiResolverProps`.  The string
alternative of `FunctionInlineDefinition` is covered by `str`; `fnConstruct`
is a pre-built `Function` construct. -/
inductive ResolverValue where
  | str (s : String)
  | fnConstruct (defn : FnDefn)
  | props (p : AppSyncApiResolverProps)
deriving DecidableEq, Repr

/-- Data-source handle returned by the external
`appsync.GraphqlApi.add*DataSource` factories, identified by the construct id
it was created under plus its pass-through inputs. -/
inductive DataSource where
  | lambdaDs (id : String) (name description : Option String)
  | dynamoDs (id : String) (name description : Option String) (table : String)
  | rdsDs (id : String) (name description : Option String) (cluster : String)
  | httpDs (id : String) (name description : Option String) (endpoint : String)
deriving DecidableEq, Repr

/-- A data-source declaration value: inline function shorthand or one of the
typed props shapes.  The source discriminates structurally (presence of
`function` / `table` / `rds` / `endpoint` fields, in that order); the typed
embedding discriminates by constructor in the same order. -/
inductive DataSourceValue where
  | inlineFn (defn : FnDefn)
  | lambdaDs (name description : Option String) (function : FnDefn)
  | dynamoDs (name description : Option String) (table : String)
  | rdsDs (name description : Option String) (cluster : String)
  | httpDs (name description : Option String) (endpoint : String)
deriving DecidableEq, Repr

/-- Resolver handle created by `graphqlApi.createResolver`; the `dataSource`
argument may be `undefined` (the source passes whatever its local variable
holds). -/
structure Resolver where
  typeName : String
  fieldName : String
  dataSource : Option DataSource
  requestMappingTemplate : Option MappingTemplateArtifact
  responseMappingTemplate : Option MappingTemplateArtifact
deriving DecidableEq, Repr

/-- The `Error`s thrown by `addResolver`. -/
inductive SstError where
  /-- "Invalid resolver ${resKey}" — key does not split into two tokens. -/
  | invalidResolver (resKey : String)
  /-- "Invalid field defined for \"${resKey}\"" — empty field-name token. -/
  | invalidField (resKey : String)
  /-- "Failed to create resolver \"${resKey}\". Data source \"${dsName}\"
  does not exist." -/
  | dataSourceNotExist (resKey : String) (dsName : String)
deriving DecidableEq, Repr

/-- Association-list lookup, embedding JavaScript object indexing `m[k]`. -/
def lookupA (k : String) : List (String × α) → Option α
  | [] => none
  | (k', v) :: rest => if k' = k then some v else lookupA k rest

/-- Association-list assignment `m[k] = v`: overwrites in place, appends for
a fresh key — JavaScript object insertion-order semantics. -/
def setA (k : String) (v : α) : List (String × α) → List (String × α)
  | [] => [(k, v)]
  | (k', v') :: rest => if k' = k then (k, v) :: rest else (k', v') :: setA k v rest

/-- `Object.keys(m).includes(k)`. -/
def containsKey (m : List (String × α)) (k : String) : Bool :=
  (lookupA k m).isSome

/-- The mutable registries of one `AppSyncApi` construct. -/
structure AppSyncApiState where
  functionsByDsKey : List (String × Fn)
  dataSourcesByDsKey : List (String × DataSource)
  dsKeysByResKey : List (String × String)
  resolversByResKey : List (String × Resolver)
  permissionsAttachedForAllFunctions : List Permissions
deriving DecidableEq, Repr

/-- A freshly constructed `AppSyncApi` with no declarations. -/
def initialState : AppSyncApiState :=
  { functionsByDsKey := []
    dataSourcesByDsKey := []
    dsKeysByResKey := []
    resolversByResKey := []
    permissionsAttachedForAllFunctions := [] }

/-- `private buildMappingTemplate(mapping?)`: nothing in, nothing out;
otherwise discriminates on the truthiness of `mapping.file` (a missing or
empty-string `file` falls to the `fromString` branch, which reads the
`inline` field without checking it). -/
def buildMappingTemplate : Option MappingTemplate → Option MappingTemplateArtifact
  | none => none
  | some m =>
    match m.file with
    | some f =>
      if f.data.isEmpty then some (.fromString m.inline)
      else some (.fromFile f)
    | none => some (.fromString m.inline)

/-- `private buildDataSourceKey(typeName, fieldName)`:
the template literal `LambdaDS_${typeName}_${fieldName}`. -/
def buildDataSourceKey (typeName fieldName : String) : String :=
  "LambdaDS_" ++ typeName ++ "_" ++ fieldName

/-- `private isLambdaResolverProps(object)`: `object.function !== undefined`. -/
def isLambdaResolverProps (p : AppSyncApiResolverProps) : Bool :=
  p.function.isSome

/-- `private isDataSourceResolverProps(object)`:
`object.dataSource !== undefined`. -/
def isDataSourceResolverProps (p : AppSyncApiResolverProps) : Bool :=
  p.dataSource.isSome

/-- `private addDataSource(scope, dsKey, dsValue)`: realizes the data source
via the provider, records it under `dsKey` (unconditional assignment — no
duplicate-key check in the source), records the compute function when one was
created, and returns that function. -/
def addDataSource (st : AppSyncApiState) (dsKey : String) (dsValue : DataSourceValue) :
    AppSyncApiState × Option Fn :=
  let created : Option Fn × DataSource :=
    match dsValue with
    | .lambdaDs name desc fdef =>
      (some (Fn.fromDefinition ("Lambda_" ++ dsKey) fdef), .lambdaDs dsKey name desc)
    | .dynamoDs name desc table => (none, .dynamoDs dsKey name desc table)
    | .rdsDs name desc cluster => (none, .rdsDs dsKey name desc cluster)
    | .httpDs name desc endpoint => (none, .httpDs dsKey name desc endpoint)
    | .inlineFn fdef =>
      (some (Fn.fromDefinition ("Lambda_" ++ dsKey) fdef), .lambdaDs dsKey none none)
  let st1 := { st with dataSourcesByDsKey := setA dsKey created.2 st.dataSourcesByDsKey }
  match created.1 with
  | some lambda =>
    ({ st1 with functionsByDsKey := setA dsKey lambda st1.functionsByDsKey }, some lambda)
  | none => (st1, none)

/-- Common tail of `addResolver` for the branches that bind an existing (or
merely named, possibly unregistered) data source: no compute function is
created; the resolver-key index and the resolver registry are updated. -/
def finishBind (st : AppSyncApiState) (resKey typeName fieldName dataSourceKey : String)
    (dataSource : Option DataSource) (reqT respT : Option MappingTemplateArtifact) :
    AppSyncApiState × Option (String × Fn) :=
  let st1 := { st with dsKeysByResKey := setA resKey dataSourceKey st.dsKeysByResKey }
  let resolver : Resolver :=
    { typeName := typeName, fieldName := fieldName, dataSource := dataSource
      requestMappingTemplate := reqT, responseMappingTemplate := respT }
  ({ st1 with resolversByResKey := setA resKey resolver st1.resolversByResKey }, none)

/-- Common tail of `addResolver` for the branches that materialize an inline
function: a compute function and an implicit lambda data source are created
and recorded under the derived key, then the index and registry are updated.
The derived key is returned with the function to model that the source's
returned `Fn` object aliases the `functionsByDsKey` entry stored under
`dataSourceKey` (the permission replay in the public `add*` wrappers mutates
that entry through the alias). -/
def finishLambda (st : AppSyncApiState) (resKey typeName fieldName : String)
    (fdef : FnDefn) (reqT respT : Option MappingTemplateArtifact) :
    AppSyncApiState × Option (String × Fn) :=
  let lambda := Fn.fromDefinition ("Lambda_" ++ typeName ++ "_" ++ fieldName) fdef
  let dataSourceKey := buildDataSourceKey typeName fieldName
  let dataSource : DataSource := .lambdaDs dataSourceKey none none
  let st1 := { st with
    dataSourcesByDsKey := setA dataSourceKey dataSource st.dataSourcesByDsKey
    functionsByDsKey := setA dataSourceKey lambda st.functionsByDsKey }
  let st2 := { st1 with dsKeysByResKey := setA resKey dataSourceKey st1.dsKeysByResKey }
  let resolver : Resolver :=
    { typeName := typeName, fieldName := fieldName, dataSource := some dataSource
      requestMappingTemplate := reqT, responseMappingTemplate := respT }
  ({ st2 with resolversByResKey := setA resKey resolver st2.resolversByResKey },
    some (dataSourceKey, lambda))

/-- `private addResolver(scope, resKey, resValue)`.  Normalizes the key,
validates the token split, then walks the source's `if`/`else if` chain:
1. plain string matching a registered data-source key → bind it, no new
   resources; 2. plain string without a `"."` → throw (unknown data source);
3. props with a `function` field (`isLambdaResolverProps`) → inline lambda
   with the props' mapping templates; 4. props with a `dataSource` field
   (`isDataSourceResolverProps`) → bind by name with no existence check;
5. anything else (dotted handler string, `Function` construct, or props with
   neither field) → inline lambda definition. -/
def addResolverNormalized (st : AppSyncApiState) (resKey : String) (resValue : ResolverValue) :
    Except SstError (AppSyncApiState × Option (String × Fn)) :=
  match resolverKeyParts resKey with
  | [typeName, fieldName] =>
    if fieldName.data.isEmpty then .error (.invalidField resKey)
    else
      match resValue with
      | .str s =>
        if containsKey st.dataSourcesByDsKey s then
          .ok (finishBind st resKey typeName fieldName s
            (lookupA s st.dataSourcesByDsKey) none none)
        else if s.data.contains '.' = false then
          .error (.dataSourceNotExist resKey s)
        else
          .ok (finishLambda st resKey typeName fieldName (.handler s) none none)
      | .props p =>
        match p.function with
        | some fdef =>
          .ok (finishLambda st resKey typeName fieldName fdef
            (buildMappingTemplate p.requestMapping)
            (buildMappingTemplate p.responseMapping))
        | none =>
          match p.dataSource with
          | some dsk =>
            .ok (finishBind st resKey typeName fieldName dsk
              (lookupA dsk st.dataSourcesByDsKey)
              (buildMappingTemplate p.requestMapping)
              (buildMappingTemplate p.responseMapping))
          | none =>
            .ok (finishLambda st resKey typeName fieldName
              (.resolverPropsValue p.requestMapping p.responseMapping) none none)
      | .fnConstruct fdef =>
        .ok (finishLambda st resKey typeName fieldName fdef none none)
  | _ => .error (.invalidResolver resKey)

/-- Entry point of `private addResolver`: the source first reassigns
`resKey = this.normalizeResolverKey(resKey)` and then proceeds on the
normalized key (`addResolverNormalized` above). -/
def addResolver (st : AppSyncApiState) (resKey0 : String) (resValue : ResolverValue) :
    Except SstError (AppSyncApiState × Option (String × Fn)) :=
  addResolverNormalized st (normalizeResolverKey resKey0) resValue

/-- `public getFunction(key)`: literal data-source-key lookup first; on miss,
normalize the key as a resolver key, map it through `dsKeysByResKey`, and
look the bound key up — empty when either hop misses. -/
def getFunction (st : AppSyncApiState) (key : String) : Option Fn :=
  match lookupA key st.functionsByDsKey with
  | some fn => some fn
  | none =>
    match lookupA (normalizeResolverKey key) st.dsKeysByResKey with
    | some dsKey => lookupA dsKey st.functionsByDsKey
    | none => none

/-- `public getDataSource(key)`: same two-hop lookup over the data-source
registry. -/
def getDataSource (st : AppSyncApiState) (key : String) : Option DataSource :=
  match lookupA key st.dataSourcesByDsKey with
  | some ds => some ds
  | none =>
    match lookupA (normalizeResolverKey key) st.dsKeysByResKey with
    | some dsKey => lookupA dsKey st.dataSourcesByDsKey
    | none => none

/-- `public getResolver(key)`: single lookup under the normalized key. -/
def getResolver (st : AppSyncApiState) (key : String) : Option Resolver :=
  lookupA (normalizeResolverKey key) st.resolversByResKey

/-- `public attachPermissions(permissions)`: applies the grant to every
currently registered compute function, then retains it for future ones. -/
def attachPermissions (st : AppSyncApiState) (p : Permissions) : AppSyncApiState :=
  { st with
    functionsByDsKey :=
      st.functionsByDsKey.map (fun e => (e.1, e.2.attachPermissions p))
    permissionsAttachedForAllFunctions :=
      st.permissionsAttachedForAllFunctions ++ [p] }

/-- The replay loop of the public `addDataSources` / `addResolvers` wrappers:
`permissionsAttachedForAllFunctions.forEach((ps) => fn.attachPermissions(ps))`
applied to the just-created function, which aliases the `functionsByDsKey`
entry at `dsKey`. -/
def replayPerms (st : AppSyncApiState) (dsKey : String) : AppSyncApiState :=
  { st with
    functionsByDsKey := st.functionsByDsKey.map (fun e =>
      (e.1,
        if e.1 = dsKey then
          { e.2 with perms := e.2.perms ++ st.permissionsAttachedForAllFunctions }
        else e.2)) }

/-- `public addDataSources(scope, dataSources)`: for each entry in order, add
the data source, then replay every retained global grant against the newly
created compute function (if any) before moving on. -/
def addDataSources (st : AppSyncApiState) :
    List (String × DataSourceValue) → AppSyncApiState
  | [] => st
  | (k, v) :: rest =>
    let r := addDataSource st k v
    let st2 := match r.2 with
      | some _ => replayPerms r.1 k
      | none => r.1
    addDataSources st2 rest

/-- `public addResolvers(scope, resolvers)`: for each entry in order, add the
resolver and replay retained global grants against any newly created compute
function; a thrown error aborts the iteration, keeping all effects of the
entries already processed (no rollback). -/
def addResolvers (st : AppSyncApiState) :
    List (String × ResolverValue) → AppSyncApiState × Option SstError
  | [] => (st, none)
  | (k, v) :: rest =>
    match addResolver st k v with
    | .error e => (st, some e)
    | .ok (st1, created) =>
      let st2 := match created with
        | some (dsKey, _) => replayPerms st1 dsKey
        | none => st1
      addResolvers st2 rest

/-- One public mutating call on the construct. -/
inductive ApiOp where
  | attach (p : Permissions)
  | addDataSources (entries : List (String × DataSourceValue))
  | addResolvers (entries : List (String × ResolverValue))

/-- Run one public call (an `addResolvers` batch keeps the state it reached
when an entry throws). -/
def runOp (st : AppSyncApiState) : ApiOp → AppSyncApiState
  | .attach p => attachPermissions st p
  | .addDataSources entries => addDataSources st entries
  | .addResolvers entries => (addResolvers st entries).1

/-- Run a sequence of public calls from a given state. -/
def runOps (st : AppSyncApiState) : List ApiOp → AppSyncApiState
  | [] => st
  | op :: ops => runOps (runOp st op) ops

/-- The global grants contained in a call sequence, in attachment order. -/
def opsGlobals : List ApiOp → List Permissions
  | [] => []
  | .attach p :: ops => p :: opsGlobals ops
  | .addDataSources _ :: ops => opsGlobals ops
  | .addResolvers _ :: ops => opsGlobals ops

/-- Invariant used for the permission-propagation claim: every registered
compute function carries exactly the retained global-grant list (in
attachment order), and the function registry has no duplicate keys. -/
def permInvariant (st : AppSyncApiState) : Prop :=
  (∀ e ∈ st.functionsByDsKey,
    e.2.perms = st.permissionsAttachedForAllFunctions) ∧
  (st.functionsByDsKey.map Prod.fst).Nodup

/-! ### Theorems about the key normalizer -/

theorem splitWs_cons (c : Char) (cs : List Char) :
    splitWs (c :: cs) =
      if isWsChar c then
        match cs with
        | c' :: _ => if isWsChar c' then splitWs cs else [] :: splitWs cs
        | [] => [[], []]
      else
        match splitWs cs with
        | t :: ts => (c :: t) :: ts
        | [] => [[c]] := rfl

theorem collapseAux_cons (b : Bool) (c : Char) (cs : List Char) :
    collapseAux b (c :: cs) =
      if isWsChar c then
        if b then collapseAux true cs else ' ' :: collapseAux true cs
      else c :: collapseAux false cs := rfl

theorem splitWs_ne_nil (l : List Char) : splitWs l ≠ [] := by
  match l with
  | [] => simp [splitWs]
  | c :: cs =>
    rw [splitWs_cons]
    cases hc : isWsChar c
    · have ih := splitWs_ne_nil cs
      match hs : splitWs cs with
      | [] => exact absurd hs ih
      | t :: ts => simp
    · match cs with
      | [] => simp
      | c' :: cs' =>
        cases hc' : isWsChar c'
        · simp [hc']
        · simpa [hc'] using splitWs_ne_nil (c' :: cs')

theorem joinSp_cons_cons (c : Char) (t : List Char) (ts : List (List Char)) :
    joinSp ((c :: t) :: ts) = c :: joinSp (t :: ts) := by
  match ts with
  | [] => simp [joinSp]
  | t' :: ts' => simp [joinSp]

/-- The split/join composition equals the run-collapsing recursion. -/
theorem normalizeChars_eq_collapse (l : List Char) :
    normalizeChars l = collapseAux false l := by
  match l with
  | [] => rfl
  | [c] =>
    cases hc : isWsChar c
    · simp [normalizeChars, splitWs_cons, splitWs, joinSp, collapseAux_cons,
        collapseAux, hc]
    · simp [normalizeChars, splitWs_cons, splitWs, joinSp, collapseAux_cons,
        collapseAux, hc]
  | c :: c' :: cs' =>
    have ih := normalizeChars_eq_collapse (c' :: cs')
    obtain ⟨t, ts, hs⟩ : ∃ t ts, splitWs (c' :: cs') = t :: ts := by
      match hsp : splitWs (c' :: cs') with
      | [] => exact absurd hsp (splitWs_ne_nil _)
      | u :: us => exact ⟨u, us, rfl⟩
    rw [normalizeChars, hs] at ih
    cases hc : isWsChar c
    · -- leading character is not whitespace
      rw [normalizeChars, splitWs_cons, hc]
      simp only [Bool.false_eq_true, if_false, hs]
      rw [joinSp_cons_cons, ih]
      simp [collapseAux_cons, hc]
    · cases hc' : isWsChar c'
      · -- whitespace then non-whitespace: an empty token is emitted
        rw [normalizeChars, splitWs_cons, hc]
        simp only [if_true, hc', Bool.false_eq_true, if_false, hs]
        have hj : joinSp ([] :: t :: ts) = ' ' :: joinSp (t :: ts) := by
          simp [joinSp]
        rw [hj, ih]
        simp [collapseAux_cons, hc, hc']
      · -- two consecutive whitespace characters: the first is dropped
        rw [normalizeChars, splitWs_cons, hc]
        simp only [hc', if_true, hs]
        rw [ih]
        simp [collapseAux_cons, hc, hc']

theorem collapseAux_idem (l : List Char) :
    ∀ b : Bool, collapseAux b (collapseAux b l) = collapseAux b l := by
  match l with
  | [] => intro b; rfl
  | c :: cs =>
    intro b
    cases hc : isWsChar c
    · simp [collapseAux_cons, hc, collapseAux_idem cs false]
    · cases b
      · have hsp : isWsChar ' ' = true := by decide
        simp [collapseAux_cons, hc, hsp, collapseAux_idem cs true]
      · simp [collapseAux_cons, hc, collapseAux_idem cs true]

/-- Idempotence of the normalizer on character lists. -/
theorem normalizeChars_idem (l : List Char) :
    normalizeChars (normalizeChars l) = normalizeChars l := by
  rw [normalizeChars_eq_collapse l, normalizeChars_eq_collapse (collapseAux false l)]
  exact collapseAux_idem l false

/-- Duplicating one whitespace character inside the key does not change the
normalized key: run length is irrelevant. -/
theorem collapseAux_dup (c : Char) (hc : isWsChar c = true) :
    ∀ (l1 l2 : List Char) (b : Bool),
      collapseAux b (l1 ++ c :: c :: l2) = collapseAux b (l1 ++ c :: l2) := by
  intro l1
  induction l1 with
  | nil =>
    intro l2 b
    cases b <;> simp [collapseAux_cons, hc]
  | cons d l1' ih =>
    intro l2 b
    cases hd : isWsChar d <;> cases b <;> simp [collapseAux_cons, hd, ih]

theorem normalizeChars_dup (c : Char) (hc : isWsChar c = true)
    (l1 l2 : List Char) :
    normalizeChars (l1 ++ c :: c :: l2) = normalizeChars (l1 ++ c :: l2) := by
  rw [normalizeChars_eq_collapse, normalizeChars_eq_collapse]
  exact collapseAux_dup c hc l1 l2 false

/-- Idempotence lifted to `String`. -/
theorem normalizeResolverKey_idem (s : String) :
    normalizeResolverKey (normalizeResolverKey s) = normalizeResolverKey s := by
  unfold normalizeResolverKey
  exact congrArg String.mk (normalizeChars_idem s.data)

/-! ### Association-list lemmas -/

theorem lookupA_setA_self (k : String) (v : α) (m : List (String × α)) :
    lookupA k (setA k v m) = some v := by
  induction m with
  | nil => simp [setA, lookupA]
  | cons e rest ih =>
    obtain ⟨k', v'⟩ := e
    by_cases h : k' = k
    · simp [setA, h, lookupA]
    · simp [setA, h, lookupA, ih]

theorem not_memKey_of_lookupA_none (k : String) (m : List (String × α))
    (h : lookupA k m = none) : k ∉ m.map Prod.fst := by
  induction m with
  | nil => simp
  | cons e rest ih =>
    obtain ⟨k', v'⟩ := e
    by_cases hk : k' = k
    · simp [lookupA, hk] at h
    · simp only [lookupA, if_neg hk] at h
      intro hmem
      simp only [List.map_cons, List.mem_cons] at hmem
      rcases hmem with h1 | h1
      · exact hk h1.symm
      · exact ih h h1

theorem keys_setA (k : String) (v : α) (m : List (String × α)) :
    (setA k v m).map Prod.fst =
      if (lookupA k m).isSome then m.map Prod.fst
      else m.map Prod.fst ++ [k] := by
  induction m with
  | nil => simp [setA, lookupA]
  | cons e rest ih =>
    obtain ⟨k', v'⟩ := e
    by_cases h : k' = k
    · simp [setA, h, lookupA]
    · simp only [setA, if_neg h, lookupA, List.map_cons]
      rw [ih]
      by_cases hs : (lookupA k rest).isSome <;> simp [hs]

theorem nodupKeys_setA (k : String) (v : α) (m : List (String × α))
    (h : (m.map Prod.fst).Nodup) : ((setA k v m).map Prod.fst).Nodup := by
  rw [keys_setA]
  cases hs : lookupA k m with
  | some w => simpa using h
  | none =>
    have hk := not_memKey_of_lookupA_none k m hs
    simp only [Option.isSome_none, Bool.false_eq_true, if_false]
    refine List.Nodup.append h (List.nodup_singleton k) ?_
    intro a ha hmem
    exact hk ((List.mem_singleton.mp hmem) ▸ ha)

theorem mem_setA_nodup (k : String) (v : α) (m : List (String × α))
    (hnd : (m.map Prod.fst).Nodup) (x : String × α) (hx : x ∈ setA k v m) :
    x = (k, v) ∨ (x ∈ m ∧ x.1 ≠ k) := by
  induction m with
  | nil =>
    left
    simpa [setA] using hx
  | cons e rest ih =>
    obtain ⟨k', v'⟩ := e
    by_cases h : k' = k
    · simp only [setA, if_pos h, List.mem_cons] at hx
      rcases hx with h1 | h1
      · exact Or.inl h1
      · right
        refine ⟨List.mem_cons_of_mem _ h1, ?_⟩
        have hnd' : (k' :: rest.map Prod.fst).Nodup := by simpa using hnd
        have hk : k' ∉ rest.map Prod.fst := (List.nodup_cons.mp hnd').1
        intro heq
        apply hk
        rw [h, ← heq]
        exact List.mem_map_of_mem Prod.fst h1
    · simp only [setA, if_neg h, List.mem_cons] at hx
      rcases hx with h1 | h1
      · refine Or.inr ⟨by simp [h1], ?_⟩
        rw [h1]
        simpa using h
      · have hnd' : (rest.map Prod.fst).Nodup := by
          have hc : (k' :: rest.map Prod.fst).Nodup := by simpa using hnd
          exact (List.nodup_cons.mp hc).2
        rcases ih hnd' h1 with h2 | ⟨h2, h3⟩
        · exact Or.inl h2
        · exact Or.inr ⟨List.mem_cons_of_mem _ h2, h3⟩

theorem string_data_append (a b : String) : (a ++ b).data = a.data ++ b.data :=
  rfl

theorem append_cancel_left_chars (a : List Char) :
    ∀ x y : List Char, a ++ x = a ++ y → x = y := by
  induction a with
  | nil => intro x y h; simpa using h
  | cons c a' ih =>
    intro x y h
    simp only [List.cons_append, List.cons.injEq] at h
    exact ih x y h.2

/-- Cancellation of a separator character that occurs in neither left part:
used for injectivity of the derived data-source key. -/
theorem sepFree_append_inj (a : List Char) :
    ∀ (b x y : List Char), a.contains '_' = false → b.contains '_' = false →
      a ++ '_' :: x = b ++ '_' :: y → a = b ∧ x = y := by
  induction a with
  | nil =>
    intro b x y _ hb h
    cases b with
    | nil => simpa using h
    | cons d b' =>
      simp only [List.nil_append, List.cons_append, List.cons.injEq] at h
      rw [List.contains_cons, Bool.or_eq_false_iff] at hb
      have hd := hb.1
      rw [← h.1] at hd
      simp at hd
  | cons c a' ih =>
    intro b x y ha hb h
    cases b with
    | nil =>
      simp only [List.cons_append, List.nil_append, List.cons.injEq] at h
      rw [List.contains_cons, Bool.or_eq_false_iff] at ha
      have hc := ha.1
      rw [h.1] at hc
      simp at hc
    | cons d b' =>
      simp only [List.cons_append, List.cons.injEq] at h
      rw [List.contains_cons, Bool.or_eq_false_iff] at ha hb
      obtain ⟨h1, h2⟩ := ih b' x y ha.2 hb.2 h.2
      exact ⟨by rw [h.1, h1], h2⟩

/-! ### Effect of the mutating operations on functions and retained grants -/

theorem keys_map_keep (g : String × Fn → Fn) (m : List (String × Fn)) :
    (m.map (fun e => (e.1, g e))).map Prod.fst = m.map Prod.fst := by
  induction m with
  | nil => rfl
  | cons e rest ih => simp [ih]

theorem addDataSource_spec (st : AppSyncApiState) (k : String) (v : DataSourceValue) :
    (addDataSource st k v).1.permissionsAttachedForAllFunctions =
      st.permissionsAttachedForAllFunctions ∧
    (((addDataSource st k v).2 = none ∧
        (addDataSource st k v).1.functionsByDsKey = st.functionsByDsKey) ∨
      (∃ fn, (addDataSource st k v).2 = some fn ∧ fn.perms = [] ∧
        (addDataSource st k v).1.functionsByDsKey = setA k fn st.functionsByDsKey)) := by
  cases v <;> simp [addDataSource, Fn.fromDefinition]

theorem addResolver_cases (st : AppSyncApiState) (k : String) (v : ResolverValue) :
    match addResolver st k v with
    | .error _ => True
    | .ok (st', fo) =>
      st'.permissionsAttachedForAllFunctions =
        st.permissionsAttachedForAllFunctions ∧
      (match fo with
        | none => st'.functionsByDsKey = st.functionsByDsKey
        | some (dk, fn) => fn.perms = [] ∧
            st'.functionsByDsKey = setA dk fn st.functionsByDsKey) := by
  unfold addResolver addResolverNormalized
  cases hparts : resolverKeyParts (normalizeResolverKey k) with
  | nil => simp
  | cons t rest1 =>
    cases rest1 with
    | nil => simp
    | cons f rest2 =>
      cases rest2 with
      | cons c rest3 => simp
      | nil =>
        by_cases hemp : f.data.isEmpty = true
        · simp [hemp]
        · cases v with
          | str s =>
            by_cases hc : containsKey st.dataSourcesByDsKey s
            · simp [hemp, hc, finishBind]
            · by_cases hdm : '.' ∈ s.data
              · simp [hemp, hc, hdm, finishLambda, Fn.fromDefinition]
              · simp [hemp, hc, hdm]
          | fnConstruct d => simp [hemp, finishLambda, Fn.fromDefinition]
          | props p =>
            cases hf : p.function with
            | some fdef => simp [hemp, hf, finishLambda, Fn.fromDefinition]
            | none =>
              cases hds : p.dataSource with
              | some dsk => simp [hemp, hf, hds, finishBind]
              | none => simp [hemp, hf, hds, finishLambda, Fn.fromDefinition]

theorem permInvariant_replay_insert (st st' : AppSyncApiState) (dk : String) (fn : Fn)
    (hg : st'.permissionsAttachedForAllFunctions =
      st.permissionsAttachedForAllFunctions)
    (hf : st'.functionsByDsKey = setA dk fn st.functionsByDsKey)
    (hperm : fn.perms = [])
    (h : permInvariant st) : permInvariant (replayPerms st' dk) := by
  constructor
  · intro e he
    simp only [replayPerms, hf, hg] at he ⊢
    obtain ⟨y, hy, rfl⟩ := List.mem_map.mp he
    rcases mem_setA_nodup dk fn st.functionsByDsKey h.2 y hy with rfl | ⟨hy2, hy3⟩
    · simp [hperm]
    · simp [hy3, h.1 y hy2]
  · simp only [replayPerms, hf]
    rw [keys_map_keep]
    exact nodupKeys_setA dk fn _ h.2

theorem permInvariant_carry (st st' : AppSyncApiState)
    (hg : st'.permissionsAttachedForAllFunctions =
      st.permissionsAttachedForAllFunctions)
    (hf : st'.functionsByDsKey = st.functionsByDsKey)
    (h : permInvariant st) : permInvariant st' := by
  constructor
  · intro e he
    rw [hg]
    exact h.1 e (hf ▸ he)
  · rw [hf]
    exact h.2

theorem addDataSources_spec (l : List (String × DataSourceValue)) :
    ∀ st : AppSyncApiState, permInvariant st →
      permInvariant (addDataSources st l) ∧
      (addDataSources st l).permissionsAttachedForAllFunctions =
        st.permissionsAttachedForAllFunctions := by
  induction l with
  | nil => intro st h; exact ⟨h, rfl⟩
  | cons e rest ih =>
    intro st h
    obtain ⟨k, v⟩ := e
    obtain ⟨hg, hcase⟩ := addDataSource_spec st k v
    rcases hcase with ⟨hnone, hfns⟩ | ⟨fn, hsome, hperm, hfns⟩
    · rw [addDataSources, hnone]
      obtain ⟨h3, h4⟩ := ih _ (permInvariant_carry st _ hg hfns h)
      exact ⟨h3, h4.trans hg⟩
    · rw [addDataSources, hsome]
      have h2 := permInvariant_replay_insert st _ k fn hg hfns hperm h
      obtain ⟨h3, h4⟩ := ih _ h2
      have h5 : (replayPerms (addDataSource st k v).1 k).permissionsAttachedForAllFunctions
          = st.permissionsAttachedForAllFunctions := by
        simpa [replayPerms] using hg
      exact ⟨h3, h4.trans h5⟩

theorem addResolvers_spec (l : List (String × ResolverValue)) :
    ∀ st : AppSyncApiState, permInvariant st →
      permInvariant (addResolvers st l).1 ∧
      (addResolvers st l).1.permissionsAttachedForAllFunctions =
        st.permissionsAttachedForAllFunctions := by
  induction l with
  | nil => intro st h; exact ⟨h, rfl⟩
  | cons e rest ih =>
    intro st h
    obtain ⟨k, v⟩ := e
    cases hred : addResolver st k v with
    | error err => rw [addResolvers, hred]; exact ⟨h, rfl⟩
    | ok pr =>
      obtain ⟨st1, fo⟩ := pr
      have spec := addResolver_cases st k v
      rw [hred] at spec
      obtain ⟨hg, hcase⟩ := spec
      cases fo with
      | none =>
        rw [addResolvers, hred]
        obtain ⟨h3, h4⟩ := ih _ (permInvariant_carry st st1 hg hcase h)
        exact ⟨h3, h4.trans hg⟩
      | some pr2 =>
        obtain ⟨dk, fn⟩ := pr2
        obtain ⟨hperm, hfns⟩ := hcase
        rw [addResolvers, hred]
        have h2 := permInvariant_replay_insert st st1 dk fn hg hfns hperm h
        obtain ⟨h3, h4⟩ := ih _ h2
        have h5 : (replayPerms st1 dk).permissionsAttachedForAllFunctions
            = st.permissionsAttachedForAllFunctions := by
          simpa [replayPerms] using hg
        exact ⟨h3, h4.trans h5⟩

theorem attachPermissions_spec (st : AppSyncApiState) (p : Permissions)
    (h : permInvariant st) : permInvariant (attachPermissions st p) := by
  constructor
  · intro e he
    simp only [attachPermissions] at he ⊢
    obtain ⟨y, hy, rfl⟩ := List.mem_map.mp he
    simp [Fn.attachPermissions, h.1 y hy]
  · simp only [attachPermissions]
    have : (st.functionsByDsKey.map
        (fun e => (e.1, e.2.attachPermissions p))).map Prod.fst =
        st.functionsByDsKey.map Prod.fst :=
      keys_map_keep (fun e => e.2.attachPermissions p) st.functionsByDsKey
    rw [this]
    exact h.2

theorem runOp_spec (st : AppSyncApiState) (op : ApiOp) (h : permInvariant st) :
    permInvariant (runOp st op) ∧
    (runOp st op).permissionsAttachedForAllFunctions =
      st.permissionsAttachedForAllFunctions ++ opsGlobals [op] := by
  cases op with
  | attach p =>
    exact ⟨attachPermissions_spec st p h, by simp [runOp, attachPermissions, opsGlobals]⟩
  | addDataSources entries =>
    obtain ⟨h1, h2⟩ := addDataSources_spec entries st h
    exact ⟨h1, by simpa [runOp, opsGlobals] using h2⟩
  | addResolvers entries =>
    obtain ⟨h1, h2⟩ := addResolvers_spec entries st h
    exact ⟨h1, by simpa [runOp, opsGlobals] using h2⟩

theorem runOps_spec (ops : List ApiOp) :
    ∀ st : AppSyncApiState, permInvariant st →
      permInvariant (runOps st ops) ∧
      (runOps st ops).permissionsAttachedForAllFunctions =
        st.permissionsAttachedForAllFunctions ++ opsGlobals ops := by
  induction ops with
  | nil => intro st h; simp [runOps, opsGlobals]; exact h
  | cons op ops ih =>
    intro st h
    obtain ⟨h1, h2⟩ := runOp_spec st op h
    obtain ⟨h3, h4⟩ := ih (runOp st op) h1
    refine ⟨h3, ?_⟩
    rw [runOps, h4, h2]
    cases op <;> simp [opsGlobals]

theorem finishBind_resolver (st : AppSyncApiState)
    (rk t f dsk : String) (dso : Option DataSource)
    (rq rs : Option MappingTemplateArtifact) :
    lookupA rk (finishBind st rk t f dsk dso rq rs).1.resolversByResKey =
      some { typeName := t, fieldName := f, dataSource := dso
             requestMappingTemplate := rq, responseMappingTemplate := rs } := by
  simp [finishBind, lookupA_setA_self]

theorem finishLambda_resolver (st : AppSyncApiState)
    (rk t f : String) (fdef : FnDefn) (rq rs : Option MappingTemplateArtifact) :
    lookupA rk (finishLambda st rk t f fdef rq rs).1.resolversByResKey =
      some { typeName := t, fieldName := f
             dataSource := some (.lambdaDs (buildDataSourceKey t f) none none)
             requestMappingTemplate := rq, responseMappingTemplate := rs } := by
  simp [finishLambda, lookupA_setA_self]

/-- Every successful `addResolver` stores, under the normalized key, a
resolver whose type and field names are the two tokens of the key split. -/
theorem addResolver_registers_resolver (st : AppSyncApiState) (k : String)
    (v : ResolverValue) (t f : String)
    (hp : resolverKeyParts (normalizeResolverKey k) = [t, f]) :
    match addResolver st k v with
    | .error _ => True
    | .ok (st', _) =>
      ∃ r : Resolver,
        lookupA (normalizeResolverKey k) st'.resolversByResKey = some r ∧
        r.typeName = t ∧ r.fieldName = f := by
  unfold addResolver addResolverNormalized
  rw [hp]
  by_cases hemp : f.data.isEmpty = true
  · simp [hemp]
  · cases v with
    | str s =>
      by_cases hc : containsKey st.dataSourcesByDsKey s
      · simpa [hemp, hc] using
          ⟨_, finishBind_resolver st (normalizeResolverKey k) t f s
            (lookupA s st.dataSourcesByDsKey) none none, rfl, rfl⟩
      · by_cases hdm : '.' ∈ s.data
        · simpa [hemp, hc, hdm] using
            ⟨_, finishLambda_resolver st (normalizeResolverKey k) t f
              (.handler s) none none, rfl, rfl⟩
        · simp [hemp, hc, hdm]
    | fnConstruct d =>
      simpa [hemp] using
        ⟨_, finishLambda_resolver st (normalizeResolverKey k) t f d none none,
          rfl, rfl⟩
    | props p =>
      cases hf : p.function with
      | some fdef =>
        simpa [hemp, hf] using
          ⟨_, finishLambda_resolver st (normalizeResolverKey k) t f fdef
            (buildMappingTemplate p.requestMapping)
            (buildMappingTemplate p.responseMapping), rfl, rfl⟩
      | none =>
        cases hds : p.dataSource with
        | some dsk =>
          simpa [hemp, hf, hds] using
            ⟨_, finishBind_resolver st (normalizeResolverKey k) t f dsk
              (lookupA dsk st.dataSourcesByDsKey)
              (buildMappingTemplate p.requestMapping)
              (buildMappingTemplate p.responseMapping), rfl, rfl⟩
        | none =>
          simpa [hemp, hf, hds] using
            ⟨_, finishLambda_resolver st (normalizeResolverKey k) t f
              (.resolverPropsValue p.requestMapping p.responseMapping) none none,
              rfl, rfl⟩

/-! ### Claim theorems -/

/-- C5 counterexample: the claim states that the normalizer trims, but
`normalizeResolverKey` only collapses whitespace runs to single spaces:
`" Query foo"` keeps its leading space instead of normalizing to
`"Query foo"`. -/
theorem claim5_counterexample :
    normalizeResolverKey " Query foo" = " Query foo" ∧
    (" Query foo" : String) ≠ "Query foo" :=
  ⟨by decide, by decide⟩

/-- C5 (amended): the resolver-key normalizer splits its input on any run of
whitespace and rejoins with single spaces, but does not trim (a leading or
trailing run collapses to one space).  It is pure, total and idempotent;
strings differing only in the length of a whitespace run normalize to the
same key, and `normalize "Query   foo" = normalize "Query foo" =
"Query foo"`. -/
theorem claim5_normalizer :
    (∀ s : String,
      normalizeResolverKey (normalizeResolverKey s) = normalizeResolverKey s) ∧
    (∀ (a b : List Char) (c : Char), isWsChar c = true →
      normalizeResolverKey ⟨a ++ c :: c :: b⟩ = normalizeResolverKey ⟨a ++ c :: b⟩) ∧
    normalizeResolverKey "Query   foo" = normalizeResolverKey "Query foo" ∧
    normalizeResolverKey "Query foo" = "Query foo" := by
  refine ⟨normalizeResolverKey_idem, ?_, by decide, by decide⟩
  intro a b c hc
  unfold normalizeResolverKey
  exact congrArg String.mk (normalizeChars_dup c hc a b)

/-- Witness for C5: duplicating the space of `"Q f"` does not change the
normalized key. -/
theorem claim5_witness :
    normalizeResolverKey ⟨['Q'] ++ ' ' :: ' ' :: ['f']⟩ =
      normalizeResolverKey ⟨['Q'] ++ ' ' :: ['f']⟩ :=
  claim5_normalizer.2.1 ['Q'] ['f'] ' ' (by decide)

/-- C4 counterexample: the derived data-source key is not injective on
distinct `(typeName, fieldName)` pairs — an underscore in the type name
collides with the separator: `("a_b", "c")` and `("a", "b_c")` derive the
same key `"LambdaDS_a_b_c"`. -/
theorem claim4_counterexample :
    buildDataSourceKey "a_b" "c" = buildDataSourceKey "a" "b_c" ∧
    (("a_b", "c") : String × String) ≠ ("a", "b_c") :=
  ⟨by decide, by decide⟩

/-- C4 (amended): the implicit data-source key is the deterministic pure
function `(t, f) ↦ "LambdaDS_" ++ t ++ "_" ++ f` of the type and field name;
it is injective only on pairs whose type names contain no underscore
(in general, moving an underscore between type and field name collides). -/
theorem claim4_derived_key :
    (∀ t f : String, buildDataSourceKey t f = "LambdaDS_" ++ t ++ "_" ++ f) ∧
    (∀ t1 f1 t2 f2 : String,
      t1.data.contains '_' = false → t2.data.contains '_' = false →
      buildDataSourceKey t1 f1 = buildDataSourceKey t2 f2 →
      t1 = t2 ∧ f1 = f2) := by
  refine ⟨fun t f => rfl, ?_⟩
  intro t1 f1 t2 f2 h1 h2 heq
  have hd := congrArg String.data heq
  have hu : ("_" : String).data = ['_'] := by decide
  have hl : "LambdaDS_".data ++ (t1.data ++ '_' :: f1.data) =
      "LambdaDS_".data ++ (t2.data ++ '_' :: f2.data) := by
    simpa [buildDataSourceKey, string_data_append, hu, List.append_assoc] using hd
  have hc := append_cancel_left_chars _ _ _ hl
  obtain ⟨ht, hf⟩ := sepFree_append_inj t1.data t2.data f1.data f2.data h1 h2 hc
  exact ⟨String.ext ht, String.ext hf⟩

/-- Witness for C4: underscore-free type names recover both components. -/
theorem claim4_witness : ("Query" : String) = "Query" ∧ ("a" : String) = "a" :=
  claim4_derived_key.2 "Query" "a" "Query" "a" (by decide) (by decide) rfl

/-- C8 counterexample: the mapping-template builder raises no
`InvalidTemplateSpec` error — a spec with both `file` and `inline` set
silently uses the file, and a spec with neither set produces a `fromString`
artifact wrapping the absent `inline` field. -/
theorem claim8_counterexample :
    buildMappingTemplate (some { file := some "req.vtl", inline := some "tpl" }) =
      some (.fromFile "req.vtl") ∧
    buildMappingTemplate (some { file := none, inline := none }) =
      some (.fromString none) :=
  ⟨rfl, rfl⟩

/-- C8 (amended): the builder maps an absent spec to an absent artifact, a
spec with a truthy (non-empty) `file` to a file-loaded artifact (even when
`inline` is also set), and every other spec — inline, neither field, or an
empty-string `file` — to a `fromString` artifact wrapping whatever the
`inline` field holds; no validation error exists. -/
theorem claim8_mapping_template :
    buildMappingTemplate none = none ∧
    (∀ (f : String) (i : Option String), f.data.isEmpty = false →
      buildMappingTemplate (some { file := some f, inline := i }) =
        some (.fromFile f)) ∧
    (∀ i : Option String,
      buildMappingTemplate (some { file := none, inline := i }) =
        some (.fromString i)) ∧
    (∀ i : Option String,
      buildMappingTemplate (some { file := some "", inline := i }) =
        some (.fromString i)) := by
  refine ⟨rfl, ?_, fun i => rfl, fun i => rfl⟩
  intro f i hf
  simp [buildMappingTemplate, hf]

/-- Witness for C8: a file-backed spec with a non-empty path yields the file
artifact. -/
theorem claim8_witness :
    buildMappingTemplate (some { file := some "req.vtl", inline := none }) =
      some (.fromFile "req.vtl") :=
  claim8_mapping_template.2.1 "req.vtl" none (by decide)

/-- C7 counterexample: `addDataSource` has no duplicate-key check and cannot
fail — adding a second data source under the already-used key `"X"` silently
replaces the registry entry. -/
theorem claim7_counterexample :
    (addDataSource
      { functionsByDsKey := []
        dataSourcesByDsKey := [("X", DataSource.httpDs "X" none none "https://a")]
        dsKeysByResKey := []
        resolversByResKey := []
        permissionsAttachedForAllFunctions := [] }
      "X" (.httpDs none none "https://b")).1.dataSourcesByDsKey =
      [("X", DataSource.httpDs "X" none none "https://b")] := by
  decide

/-- C7 (amended): adding a data source under a key that is already present
raises no error from this code: the registry entry is overwritten in place
(`this.dataSourcesByDsKey[dsKey] = dataSource` is an unconditional
assignment); any duplicate rejection would come only from the external CDK
construct layer, which is outside the source. -/
theorem claim7_overwrite (st : AppSyncApiState) (k : String) (v : DataSourceValue)
    (hdup : containsKey st.dataSourcesByDsKey k = true) :
    ∃ ds : DataSource,
      (addDataSource st k v).1.dataSourcesByDsKey = setA k ds st.dataSourcesByDsKey ∧
      lookupA k (addDataSource st k v).1.dataSourcesByDsKey = some ds := by
  cases v with
  | inlineFn d => exact ⟨_, rfl, lookupA_setA_self k _ st.dataSourcesByDsKey⟩
  | lambdaDs n de fd => exact ⟨_, rfl, lookupA_setA_self k _ st.dataSourcesByDsKey⟩
  | dynamoDs n de t => exact ⟨_, rfl, lookupA_setA_self k _ st.dataSourcesByDsKey⟩
  | rdsDs n de c => exact ⟨_, rfl, lookupA_setA_self k _ st.dataSourcesByDsKey⟩
  | httpDs n de e => exact ⟨_, rfl, lookupA_setA_self k _ st.dataSourcesByDsKey⟩

/-- Witness for C7: re-adding key `"X"` overwrites its registry entry. -/
theorem claim7_witness :
    ∃ ds : DataSource,
      (addDataSource
        { functionsByDsKey := []
          dataSourcesByDsKey := [("X", DataSource.httpDs "X" none none "https://a")]
          dsKeysByResKey := []
          resolversByResKey := []
          permissionsAttachedForAllFunctions := [] }
        "X" (.rdsDs none none "cluster")).1.dataSourcesByDsKey =
        setA "X" ds [("X", DataSource.httpDs "X" none none "https://a")] ∧
      lookupA "X" (addDataSource
        { functionsByDsKey := []
          dataSourcesByDsKey := [("X", DataSource.httpDs "X" none none "https://a")]
          dsKeysByResKey := []
          resolversByResKey := []
          permissionsAttachedForAllFunctions := [] }
        "X" (.rdsDs none none "cluster")).1.dataSourcesByDsKey = some ds :=
  claim7_overwrite _ "X" (.rdsDs none none "cluster") (by decide)

/-- C2: over any sequence of public `attachPermissions`, `addDataSources` and
`addResolvers` calls on one freshly constructed API, the retained global-grant
list equals the grants of the `attach` calls in attachment order, and every
registered compute function carries exactly that list — so the grants a
compute function ends up with are independent of the relative order of
attach and add calls. -/
theorem claim2_global_grant_replay (ops : List ApiOp) :
    (runOps initialState ops).permissionsAttachedForAllFunctions =
      opsGlobals ops ∧
    ∀ e ∈ (runOps initialState ops).functionsByDsKey,
      e.2.perms = opsGlobals ops := by
  have hinit : permInvariant initialState := by
    constructor
    · intro e he
      simp [initialState] at he
    · simp [initialState]
  obtain ⟨h1, h2⟩ := runOps_spec ops initialState hinit
  have hg : (runOps initialState ops).permissionsAttachedForAllFunctions =
      opsGlobals ops := by
    simpa [initialState] using h2
  refine ⟨hg, ?_⟩
  intro e he
  rw [h1.1 e he, hg]

/-- Witness for C2: attaching grant `5` before creating data source
`"notesDS"` leaves the created compute function holding exactly `[5]`. -/
theorem claim2_witness :
    (runOps initialState
      [ApiOp.attach 5,
        ApiOp.addDataSources
          [("notesDS", DataSourceValue.inlineFn (FnDefn.handler "src/notes.main"))]]
      ).permissionsAttachedForAllFunctions = [5] ∧
    ({ cid := "Lambda_notesDS", defn := FnDefn.handler "src/notes.main", perms := [5] } : Fn).perms = [5] := by
  have h := claim2_global_grant_replay
    [ApiOp.attach 5,
      ApiOp.addDataSources
        [("notesDS", DataSourceValue.inlineFn (FnDefn.handler "src/notes.main"))]]
  exact ⟨h.1, h.2
    ("notesDS",
      { cid := "Lambda_notesDS", defn := FnDefn.handler "src/notes.main", perms := [5] })
    (by decide)⟩

/-- C1: for a resolver declared with a plain string value and a valid resolver
key, (i) a string equal to a registered data-source key binds to the existing
data source — the function and data-source registries are unchanged, no
compute function is returned, and only the resolver-key index and resolver
registry grow (this branch carries no no-dot condition, so a registered key
that also looks like a handler path still binds); (ii) an unregistered string
with no `"."` fails with the unknown-data-source error. -/
theorem claim1_plain_string_resolver (st : AppSyncApiState) (rk s t f : String)
    (hparts : resolverKeyParts (normalizeResolverKey rk) = [t, f])
    (hf : f.data.isEmpty = false) :
    (containsKey st.dataSourcesByDsKey s = true →
      addResolver st rk (.str s) = .ok
        ({ st with
            dsKeysByResKey := setA (normalizeResolverKey rk) s st.dsKeysByResKey
            resolversByResKey := setA (normalizeResolverKey rk)
              { typeName := t, fieldName := f
                dataSource := lookupA s st.dataSourcesByDsKey
                requestMappingTemplate := none
                responseMappingTemplate := none }
              st.resolversByResKey }, none)) ∧
    (containsKey st.dataSourcesByDsKey s = false → s.data.contains '.' = false →
      addResolver st rk (.str s) =
        .error (.dataSourceNotExist (normalizeResolverKey rk) s)) := by
  constructor
  · intro hc
    unfold addResolver addResolverNormalized
    rw [hparts]
    simp [hf, hc, finishBind]
  · intro hc hd
    have hdm : '.' ∉ s.data := by simpa using hd
    unfold addResolver addResolverNormalized
    rw [hparts]
    simp [hf, hc, hdm]

/-- Witness for C1: with data source `"notesDS"` registered, the resolver
string `"notesDS"` binds to it without creating resources, and the
unregistered dot-free string `"nope"` fails. -/
theorem claim1_witness :
    addResolver (addDataSource initialState "notesDS"
        (.inlineFn (.handler "src/notes.main"))).1
      "Query  listNotes" (.str "notesDS") =
      .ok
        ({ functionsByDsKey := [("notesDS",
              { cid := "Lambda_notesDS", defn := FnDefn.handler "src/notes.main", perms := [] })]
           dataSourcesByDsKey := [("notesDS", DataSource.lambdaDs "notesDS" none none)]
           dsKeysByResKey := [("Query listNotes", "notesDS")]
           resolversByResKey := [("Query listNotes",
              { typeName := "Query", fieldName := "listNotes"
                dataSource := some (DataSource.lambdaDs "notesDS" none none)
                requestMappingTemplate := none
                responseMappingTemplate := none })]
           permissionsAttachedForAllFunctions := [] }, none) ∧
    addResolver (addDataSource initialState "notesDS"
        (.inlineFn (.handler "src/notes.main"))).1
      "Mutation bad" (.str "nope") =
      .error (.dataSourceNotExist "Mutation bad" "nope") := by
  have h1 := (claim1_plain_string_resolver
    (addDataSource initialState "notesDS" (.inlineFn (.handler "src/notes.main"))).1
    "Query  listNotes" "notesDS" "Query" "listNotes" (by decide) (by decide)).1
    (by decide)
  have h2 := (claim1_plain_string_resolver
    (addDataSource initialState "notesDS" (.inlineFn (.handler "src/notes.main"))).1
    "Mutation bad" "nope" "Mutation" "bad" (by decide) (by decide)).2
    (by decide) (by decide)
  exact ⟨h1, h2⟩

/-- C10: a props-form resolver whose `dataSource` field names an unregistered
key raises no error: the unregistered key is recorded in the resolver-key
index, the resolver is created with an absent data-source handle, and no
compute function is returned — while the plain-string form on the same
(dot-free) key fails with the unknown-data-source error. -/
theorem claim10_unregistered_props_datasource (st : AppSyncApiState)
    (rk dsk t f : String) (rm rsm : Option MappingTemplate)
    (hparts : resolverKeyParts (normalizeResolverKey rk) = [t, f])
    (hf : f.data.isEmpty = false)
    (hmiss : lookupA dsk st.dataSourcesByDsKey = none) :
    addResolver st rk
      (.props
        { dataSource := some dsk, function := none
          requestMapping := rm, responseMapping := rsm }) =
      .ok
        ({ st with
            dsKeysByResKey := setA (normalizeResolverKey rk) dsk st.dsKeysByResKey
            resolversByResKey := setA (normalizeResolverKey rk)
              { typeName := t, fieldName := f
                dataSource := none
                requestMappingTemplate := buildMappingTemplate rm
                responseMappingTemplate := buildMappingTemplate rsm }
              st.resolversByResKey }, none) ∧
    (dsk.data.contains '.' = false →
      addResolver st rk (.str dsk) =
        .error (.dataSourceNotExist (normalizeResolverKey rk) dsk)) := by
  constructor
  · unfold addResolver addResolverNormalized
    rw [hparts]
    simp [hf, finishBind, hmiss]
  · intro hdot
    have hc : containsKey st.dataSourcesByDsKey dsk = false := by
      simp [containsKey, hmiss]
    have hdm : '.' ∉ dsk.data := by simpa using hdot
    unfold addResolver addResolverNormalized
    rw [hparts]
    simp [hf, hc, hdm]

/-- Witness for C10: on an empty API, a props resolver naming the
unregistered key `"ghostDS"` succeeds with an absent data-source handle,
while the plain string `"ghostDS"` fails. -/
theorem claim10_witness :
    addResolver initialState "Query a"
      (.props
        { dataSource := some "ghostDS", function := none
          requestMapping := none, responseMapping := none }) =
      .ok
        ({ initialState with
            dsKeysByResKey := setA (normalizeResolverKey "Query a") "ghostDS"
              initialState.dsKeysByResKey
            resolversByResKey := setA (normalizeResolverKey "Query a")
              { typeName := "Query", fieldName := "a"
                dataSource := none
                requestMappingTemplate := buildMappingTemplate none
                responseMappingTemplate := buildMappingTemplate none }
              initialState.resolversByResKey }, none) ∧
    (("ghostDS" : String).data.contains '.' = false →
      addResolver initialState "Query a" (.str "ghostDS") =
        .error (.dataSourceNotExist (normalizeResolverKey "Query a") "ghostDS")) :=
  claim10_unregistered_props_datasource initialState "Query a" "ghostDS"
    "Query" "a" none none (by decide) (by decide) (by decide)

/-- C6 counterexample: a resolver key whose type-name token is empty is NOT
rejected — `" foo"` normalizes to `" foo"`, splits into `["", "foo"]`, passes
validation (only the field name is checked) and the resolver is created with
an empty type name. -/
theorem claim6_counterexample :
    resolverKeyParts (normalizeResolverKey " foo") = ["", "foo"] ∧
    addResolver
      { functionsByDsKey := []
        dataSourcesByDsKey := [("X", DataSource.httpDs "X" none none "https://e")]
        dsKeysByResKey := []
        resolversByResKey := []
        permissionsAttachedForAllFunctions := [] }
      " foo" (.str "X") =
      .ok
        ({ functionsByDsKey := []
           dataSourcesByDsKey := [("X", DataSource.httpDs "X" none none "https://e")]
           dsKeysByResKey := [(" foo", "X")]
           resolversByResKey := [(" foo",
              { typeName := "", fieldName := "foo"
                dataSource := some (DataSource.httpDs "X" none none "https://e")
                requestMappingTemplate := none
                responseMappingTemplate := none })]
           permissionsAttachedForAllFunctions := [] }, none) :=
  ⟨by decide, rfl⟩

/-- C6 (amended): `addResolver` fails at construction time when the
normalized key does not split on single spaces into exactly two tokens
(one token, three or more tokens), or when the second (field-name) token is
empty; an empty type-name token is accepted.  On success the two tokens
become the created resolver's `(typeName, fieldName)`. -/
theorem claim6_key_validation :
    (∀ (st : AppSyncApiState) (rk : String) (v : ResolverValue),
      (resolverKeyParts (normalizeResolverKey rk)).length ≠ 2 →
      addResolver st rk v = .error (.invalidResolver (normalizeResolverKey rk))) ∧
    (∀ (st : AppSyncApiState) (rk : String) (v : ResolverValue) (t f : String),
      resolverKeyParts (normalizeResolverKey rk) = [t, f] →
      f.data.isEmpty = true →
      addResolver st rk v = .error (.invalidField (normalizeResolverKey rk))) ∧
    (∀ (st st' : AppSyncApiState) (rk : String) (v : ResolverValue)
      (t f : String) (fo : Option (String × Fn)),
      resolverKeyParts (normalizeResolverKey rk) = [t, f] →
      addResolver st rk v = .ok (st', fo) →
      ∃ r : Resolver,
        lookupA (normalizeResolverKey rk) st'.resolversByResKey = some r ∧
        r.typeName = t ∧ r.fieldName = f) := by
  refine ⟨?_, ?_, ?_⟩
  · intro st rk v hlen
    unfold addResolver addResolverNormalized
    cases hp : resolverKeyParts (normalizeResolverKey rk) with
    | nil => rfl
    | cons a l1 =>
      cases l1 with
      | nil => rfl
      | cons b l2 =>
        cases l2 with
        | nil =>
          rw [hp] at hlen
          simp at hlen
        | cons c l3 => rfl
  · intro st rk v t f hp hfe
    unfold addResolver addResolverNormalized
    rw [hp]
    simp [hfe]
  · intro st st' rk v t f fo hp hok
    have h := addResolver_registers_resolver st rk v t f hp
    rw [hok] at h
    exact h

/-- Witness for C6: `"Query"` (one token) and `"Query a b"` (three tokens)
fail with the invalid-resolver error, `"Query "` (empty field) fails with the
invalid-field error, and the successful `"Query a"` stores a resolver with
type name `"Query"` and field name `"a"`. -/
theorem claim6_witness :
    addResolver initialState "Query" (.str "src/x.main") =
      .error (.invalidResolver "Query") ∧
    addResolver initialState "Query a b" (.str "src/x.main") =
      .error (.invalidResolver "Query a b") ∧
    addResolver initialState "Query " (.str "src/x.main") =
      .error (.invalidField "Query ") ∧
    ∃ r : Resolver,
      lookupA "Query a"
        ({ functionsByDsKey := [("LambdaDS_Query_a",
              { cid := "Lambda_Query_a", defn := FnDefn.handler "src/x.main", perms := [] })]
           dataSourcesByDsKey :=
             [("LambdaDS_Query_a", DataSource.lambdaDs "LambdaDS_Query_a" none none)]
           dsKeysByResKey := [("Query a", "LambdaDS_Query_a")]
           resolversByResKey := [("Query a",
              { typeName := "Query", fieldName := "a"
                dataSource := some (DataSource.lambdaDs "LambdaDS_Query_a" none none)
                requestMappingTemplate := none
                responseMappingTemplate := none })]
           permissionsAttachedForAllFunctions := [] } : AppSyncApiState).resolversByResKey
        = some r ∧
      r.typeName = "Query" ∧ r.fieldName = "a" := by
  refine ⟨?_, ?_, ?_, ?_⟩
  · exact claim6_key_validation.1 initialState "Query" (.str "src/x.main") (by decide)
  · exact claim6_key_validation.1 initialState "Query a b" (.str "src/x.main") (by decide)
  · exact claim6_key_validation.2.1 initialState "Query " (.str "src/x.main")
      "Query" "" (by decide) (by decide)
  · exact claim6_key_validation.2.2 initialState _ "Query a" (.str "src/x.main")
      "Query" "a" (some ("LambdaDS_Query_a",
        { cid := "Lambda_Query_a", defn := FnDefn.handler "src/x.main", perms := [] }))
      (by decide) rfl

/-- C9: a failed `addResolvers` batch has no rollback — if the entries of
`l1` all succeed and the next entry `(k, v)` throws error `e`, then running
the whole batch `l1 ++ (k, v) :: l2` returns exactly the state reached after
`l1` (all earlier entries fully registered) together with `e`; the failing
entry and everything after it leave no trace. -/
theorem claim9_no_rollback :
    ∀ (l1 : List (String × ResolverValue)) (st st1 : AppSyncApiState)
      (k : String) (v : ResolverValue) (e : SstError)
      (l2 : List (String × ResolverValue)),
      addResolvers st l1 = (st1, none) →
      addResolver st1 k v = .error e →
      addResolvers st (l1 ++ (k, v) :: l2) = (st1, some e) := by
  intro l1
  induction l1 with
  | nil =>
    intro st st1 k v e l2 h1 h2
    rw [addResolvers] at h1
    injection h1 with ha hb
    subst ha
    rw [List.nil_append, addResolvers, h2]
  | cons hd rest ih =>
    intro st st1 k v e l2 h1 h2
    obtain ⟨hk, hv⟩ := hd
    rw [addResolvers] at h1
    cases hr : addResolver st hk hv with
    | error err =>
      rw [hr] at h1
      simp at h1
    | ok pr =>
      obtain ⟨stA, fo⟩ := pr
      rw [hr] at h1
      rw [List.cons_append, addResolvers, hr]
      exact ih _ st1 k v e l2 h1 h2

/-- Witness for C9: in the batch `[good, bad, later]`, the first entry stays
fully registered, the unknown-data-source error of the second is surfaced,
and the third is never processed. -/
theorem claim9_witness :
    addResolvers initialState
      ([("Query a", ResolverValue.str "src/list.main")] ++
        ("Mutation b", ResolverValue.str "nope") ::
        [("Query c", ResolverValue.str "src/more.main")]) =
      ({ functionsByDsKey := [("LambdaDS_Query_a",
            { cid := "Lambda_Query_a", defn := FnDefn.handler "src/list.main", perms := [] })]
         dataSourcesByDsKey :=
           [("LambdaDS_Query_a", DataSource.lambdaDs "LambdaDS_Query_a" none none)]
         dsKeysByResKey := [("Query a", "LambdaDS_Query_a")]
         resolversByResKey := [("Query a",
            { typeName := "Query", fieldName := "a"
              dataSource := some (DataSource.lambdaDs "LambdaDS_Query_a" none none)
              requestMappingTemplate := none
              responseMappingTemplate := none })]
         permissionsAttachedForAllFunctions := [] },
        some (.dataSourceNotExist "Mutation b" "nope")) :=
  claim9_no_rollback [("Query a", ResolverValue.str "src/list.main")]
    initialState _ "Mutation b" (ResolverValue.str "nope")
    (.dataSourceNotExist "Mutation b" "nope")
    [("Query c", ResolverValue.str "src/more.main")]
    rfl rfl

/-- C3 counterexample: the "identical handle" consequence fails when the
resolver key itself collides with a registered data-source key: with data
sources `"K1"` and `"Query listNotes"` (both lambda) and the resolver
`"Query listNotes"` bound to `"K1"`, the literal first hop makes
`getFunction "Query listNotes"` return the colliding data source's function,
not the one bound to the resolver. -/
theorem claim3_counterexample :
    (let st : AppSyncApiState :=
      { functionsByDsKey :=
          [("K1", { cid := "Lambda_K1", defn := FnDefn.handler "src/a.main", perms := [] }),
            ("Query listNotes",
              { cid := "Lambda_Query listNotes",
                defn := FnDefn.handler "src/b.main", perms := [] })]
        dataSourcesByDsKey :=
          [("K1", DataSource.lambdaDs "K1" none none),
            ("Query listNotes", DataSource.lambdaDs "Query listNotes" none none)]
        dsKeysByResKey := [("Query listNotes", "K1")]
        resolversByResKey := [("Query listNotes",
          { typeName := "Query", fieldName := "listNotes"
            dataSource := some (DataSource.lambdaDs "K1" none none)
            requestMappingTemplate := none
            responseMappingTemplate := none })]
        permissionsAttachedForAllFunctions := [] }
    lookupA "Query listNotes" st.dsKeysByResKey = some "K1" ∧
    (getFunction st "K1").isSome = true ∧
    getFunction st "Query listNotes" ≠ getFunction st "K1") := by
  decide

/-- C3 (amended): `getFunction` and `getDataSource` are a two-hop lookup —
literal registry hit first, otherwise normalize the key, consult the
resolver-key index and look up the bound key, with an empty result when
either hop misses and no other fallback.  Consequently, for resolver keys
that are not themselves registry keys, a resolver bound to data-source key
`K` yields `getFunction resolverKey = getFunction K`, and two such resolvers
bound to the same data source resolve to the same compute handle. -/
theorem claim3_two_hop_lookup (st : AppSyncApiState) :
    (∀ key : String, lookupA key st.functionsByDsKey = none →
      lookupA (normalizeResolverKey key) st.dsKeysByResKey = none →
      getFunction st key = none) ∧
    (∀ key dsKey : String, lookupA key st.functionsByDsKey = none →
      lookupA (normalizeResolverKey key) st.dsKeysByResKey = some dsKey →
      getFunction st key = lookupA dsKey st.functionsByDsKey) ∧
    (∀ key : String, lookupA key st.dataSourcesByDsKey = none →
      lookupA (normalizeResolverKey key) st.dsKeysByResKey = none →
      getDataSource st key = none) ∧
    (∀ key dsKey : String, lookupA key st.dataSourcesByDsKey = none →
      lookupA (normalizeResolverKey key) st.dsKeysByResKey = some dsKey →
      getDataSource st key = lookupA dsKey st.dataSourcesByDsKey) ∧
    (∀ (r1 r2 K : String) (fn : Fn),
      lookupA r1 st.functionsByDsKey = none →
      lookupA r2 st.functionsByDsKey = none →
      lookupA (normalizeResolverKey r1) st.dsKeysByResKey = some K →
      lookupA (normalizeResolverKey r2) st.dsKeysByResKey = some K →
      lookupA K st.functionsByDsKey = some fn →
      getFunction st r1 = some fn ∧ getFunction st r2 = some fn ∧
        getFunction st K = some fn) := by
  refine ⟨?_, ?_, ?_, ?_, ?_⟩
  · intro key h1 h2
    simp [getFunction, h1, h2]
  · intro key dsKey h1 h2
    simp [getFunction, h1, h2]
  · intro key h1 h2
    simp [getDataSource, h1, h2]
  · intro key dsKey h1 h2
    simp [getDataSource, h1, h2]
  · intro r1 r2 K fn h1 h2 h3 h4 h5
    exact ⟨by simp [getFunction, h1, h3, h5], by simp [getFunction, h2, h4, h5],
      by simp [getFunction, h5]⟩

/-- Witness for C3: with inline-function data source `"notesDS"` and the two
resolvers `"Query listNotes"` and `"Mutation createNote"` bound to it, all
three lookups return the same compute handle. -/
theorem claim3_witness :
    (let st : AppSyncApiState :=
      { functionsByDsKey := [("notesDS",
          { cid := "Lambda_notesDS", defn := FnDefn.handler "src/notes.main", perms := [] })]
        dataSourcesByDsKey := [("notesDS", DataSource.lambdaDs "notesDS" none none)]
        dsKeysByResKey :=
          [("Query listNotes", "notesDS"), ("Mutation createNote", "notesDS")]
        resolversByResKey := [("Query listNotes",
            { typeName := "Query", fieldName := "listNotes"
              dataSource := some (DataSource.lambdaDs "notesDS" none none)
              requestMappingTemplate := none
              responseMappingTemplate := none }),
          ("Mutation createNote",
            { typeName := "Mutation", fieldName := "createNote"
              dataSource := some (DataSource.lambdaDs "notesDS" none none)
              requestMappingTemplate := none
              responseMappingTemplate := none })]
        permissionsAttachedForAllFunctions := [] }
    getFunction st "Query listNotes" =
      some { cid := "Lambda_notesDS", defn := FnDefn.handler "src/notes.main", perms := [] } ∧
    getFunction st "Mutation createNote" =
      some { cid := "Lambda_notesDS", defn := FnDefn.handler "src/notes.main", perms := [] } ∧
    getFunction st "notesDS" =
      some { cid := "Lambda_notesDS", defn := FnDefn.handler "src/notes.main", perms := [] }) := by
  have h := (claim3_two_hop_lookup
    { functionsByDsKey := [("notesDS",
        { cid := "Lambda_notesDS", defn := FnDefn.handler "src/notes.main", perms := [] })]
      dataSourcesByDsKey := [("notesDS", DataSource.lambdaDs "notesDS" none none)]
      dsKeysByResKey :=
        [("Query listNotes", "notesDS"), ("Mutation createNote", "notesDS")]
      resolversByResKey := [("Query listNotes",
          { typeName := "Query", fieldName := "listNotes"
            dataSource := some (DataSource.lambdaDs "notesDS" none none)
            requestMappingTemplate := none
            responseMappingTemplate := none }),
        ("Mutation createNote",
          { typeName := "Mutation", fieldName := "createNote"
            dataSource := some (DataSource.lambdaDs "notesDS" none none)
            requestMappingTemplate := none
            responseMappingTemplate := none })]
      permissionsAttachedForAllFunctions := [] }).2.2.2.2
    "Query listNotes" "Mutation createNote" "notesDS"
    { cid := "Lambda_notesDS", defn := FnDefn.handler "src/notes.main", perms := [] }
    (by decide) (by decide) (by decide) (by decide) (by decide)
  exact ⟨h.1, h.2.1, h.2.2⟩

end AppSyncSpec
